import Mathlib

/-!
Shallow embedding of the pdfsplitter page (src/src/app/page.tsx).

The page keeps React state: pdfInfo (the loaded document or null), startPage,
endPage (JS numbers), isDragging, isProcessing, error (string or null).
Handlers `loadPdf`, `handleFileSelect`, `handleDrop`, `extractPages`, the
derived `isValidRange` / `selectedPageCount`, the quick-select buttons and the
preview thumbnail click are embedded below as pure functions on that state.
Calls into the external pdf-lib library (load/copyPages/save) are modelled by
explicit outcome parameters (`Option` results), and the document itself by its
list of pages.
-/

namespace PdfSplitter

/-- The PdfInfo record stored in state on a successful load (name, pageCount;
size/data/url carry no logic the claims touch). -/
structure PdfInfo where
  name : String
  pageCount : Nat
  deriving DecidableEq

/-- The React state of the Home component. -/
structure AppState where
  pdfInfo : Option PdfInfo
  startPage : Int
  endPage : Int
  isDragging : Bool
  isProcessing : Bool
  error : Option String
  deriving DecidableEq

/-- A candidate browser file: its name and declared media type. -/
structure JsFile where
  name : String
  type : String
  deriving DecidableEq

/-- A triggered browser download: filename, MIME type and content bytes. -/
structure Download where
  filename : String
  mime : String
  content : List Nat
  deriving DecidableEq

/-! The extraction pipeline on the document model.  A document is its list of
pages.  `pushIndices` is the loop `for (let i = start; i <= end; i++)
pageIndices.push(i)`; `copyPages` models pdf-lib's `copyPages` (fails if an
index is out of range, returns the copied pages in order); `addPage` models
`newPdf.addPage` appending to the (initially empty) destination document. -/

/-- Embedding of the index-building loop: collects i, i+1, ..., e. -/
def pushIndices (i e : Nat) : List Nat :=
  if h : i ≤ e then i :: pushIndices (i + 1) e else []
termination_by e + 1 - i
decreasing_by omega

/-- Embedding of pdf-lib copyPages: looks up each requested index in the
source document, failing when any index is out of range. -/
def copyPages (source : List α) : List Nat → Option (List α)
  | [] => some []
  | i :: rest =>
    match source[i]?, copyPages source rest with
    | some p, some ps => some (p :: ps)
    | _, _ => none

/-- Embedding of newPdf.addPage: appends one page to the destination. -/
def addPage (doc : List α) (page : α) : List α := doc ++ [page]

/-- The extraction pipeline of extractPages: build indices (startPage-1
.. endPage-1), copy them from the source, append each copy in order to a
newly created empty document. -/
def extractRange (source : List α) (startPage endPage : Nat) : Option (List α) :=
  (copyPages source (pushIndices (startPage - 1) (endPage - 1))).map
    (fun pages => pages.foldl addPage [])

theorem pushIndices_eq_range (n : Nat) :
    ∀ i e : Nat, e + 1 - i = n → pushIndices i e = List.range' i n := by
  induction n with
  | zero =>
    intro i e h
    rw [pushIndices, dif_neg (by omega)]
    rfl
  | succ n ih =>
    intro i e h
    rw [pushIndices, dif_pos (by omega), ih (i + 1) e (by omega)]
    rfl

theorem foldl_addPage (pages : List α) :
    ∀ acc : List α, pages.foldl addPage acc = acc ++ pages := by
  induction pages with
  | nil => intro acc; simp
  | cons p rest ih => intro acc; simp [List.foldl_cons, addPage, ih]

theorem copyPages_range' (source : List α) (n : Nat) :
    ∀ a : Nat, a + n ≤ source.length →
      copyPages source (List.range' a n) = some ((source.drop a).take n) := by
  induction n with
  | zero => intro a _; simp [copyPages, List.range']
  | succ n ih =>
    intro a h
    have ha : a < source.length := by omega
    rw [List.range'_succ]
    rw [copyPages, List.getElem?_eq_getElem ha, ih (a + 1) (by omega)]
    rw [List.drop_eq_getElem_cons ha, List.take_succ_cons]

/-! State-level handlers. -/

/-- Error string of loadPdf's catch branch (preview variant). -/
def loadErrorMsg : String := "Unable to read this file. Please ensure it\x27s a valid PDF."

/-- Error string of handleFileSelect for a non-PDF file. -/
def selectErrorMsg : String := "Please select a PDF file."

/-- Error string of handleDrop for a non-PDF file. -/
def dropErrorMsg : String := "Please drop a PDF file."

/-- Error string of extractPages' catch branch. -/
def extractErrorMsg : String := "Something went wrong. Please try again."

/-- Embedding of loadPdf.  `openResult` is the outcome of
`PDFDocument.load(arrayBuffer)` followed by `getPageCount()`: `some pageCount`
on success, `none` when the library throws.  The handler clears the error and
sets isProcessing; on success it stores the new PdfInfo and resets the range
to [1, pageCount]; on failure it sets the error and clears pdfInfo; the
`finally` clause clears isProcessing. -/
def loadPdf (file : JsFile) (openResult : Option Nat) (s : AppState) : AppState :=
  match openResult with
  | some pageCount =>
    { s with error := none, isProcessing := false,
             pdfInfo := some { name := file.name, pageCount := pageCount },
             startPage := 1, endPage := (pageCount : Int) }
  | none =>
    { s with error := some loadErrorMsg, pdfInfo := none, isProcessing := false }

/-- Embedding of handleFileSelect.  `file` is `e.target.files?.[0]`.  The
returned Bool records whether loadPdf was invoked. -/
def handleFileSelect (file : Option JsFile) (openResult : Option Nat)
    (s : AppState) : AppState × Bool :=
  match file with
  | none => (s, false)
  | some f =>
    if f.type = "application/pdf" then (loadPdf f openResult s, true)
    else ({ s with error := some selectErrorMsg }, false)

/-- Embedding of handleDrop.  `file` is `e.dataTransfer.files[0]`.  The
handler first clears isDragging; the returned Bool records whether loadPdf
was invoked. -/
def handleDrop (file : Option JsFile) (openResult : Option Nat)
    (s : AppState) : AppState × Bool :=
  match file with
  | none => ({ s with isDragging := false }, false)
  | some f =>
    if f.type = "application/pdf" then
      (loadPdf f openResult { s with isDragging := false }, true)
    else ({ s with isDragging := false, error := some dropErrorMsg }, false)

/-- Embedding of `parseInt(e.target.value) || 1`: `none` stands for NaN, and
a parsed 0 is falsy in JS, so both map to 1. -/
def jsParseIntOr1 (v : Option Int) : Int :=
  match v with
  | none => 1
  | some n => if n = 0 then 1 else n

/-- Embedding of the range-input onChange handlers:
`Math.max(1, Math.min(val, pdfInfo.pageCount))` applied to the parsed value
before it is stored with setStartPage / setEndPage. -/
def clampPageInput (v : Option Int) (pageCount : Nat) : Int :=
  max 1 (min (jsParseIntOr1 v) (pageCount : Int))

/-- Embedding of the isValidRange derived value, in a context where pdfInfo
is loaded with the given pageCount. -/
def isValidRange (startPage endPage : Int) (pageCount : Nat) : Bool :=
  decide (startPage ≥ 1) && decide (endPage ≥ startPage) &&
    decide (endPage ≤ (pageCount : Int))

/-- State-level isValidRange, including the pdfInfo non-null conjunct. -/
def stateValidRange (s : AppState) : Bool :=
  match s.pdfInfo with
  | some info => isValidRange s.startPage s.endPage info.pageCount
  | none => false

/-- Embedding of `selectedPageCount = isValidRange ? endPage - startPage + 1 : 0`. -/
def selectedPageCount (startPage endPage : Int) (pageCount : Nat) : Int :=
  if isValidRange startPage endPage pageCount then endPage - startPage + 1 else 0

/-- Embedding of the extract button's `disabled={!isValidRange || isProcessing}`. -/
def extractControlDisabled (s : AppState) : Bool :=
  !stateValidRange s || s.isProcessing

/-- Tests whether pat occurs at the head of cs. -/
def begMatches : List Char → List Char → Bool
  | [], _ => true
  | _ :: _, [] => false
  | p :: ps, c :: rest => p == c && begMatches ps rest

/-- Character-list worker for jsReplaceFirst: removes the first occurrence of
pat, scanning left to right. -/
def removeFirstOcc (pat : List Char) : List Char → List Char
  | [] => []
  | c :: rest =>
    if begMatches pat (c :: rest) then (c :: rest).drop pat.length
    else c :: removeFirstOcc pat rest

/-- Embedding of JS `str.replace(pat, "")` with a string pattern: only the
first occurrence of pat is removed; the string is unchanged when pat does not
occur. -/
def jsReplaceFirst (pat str : String) : String :=
  String.mk (removeFirstOcc pat.data str.data)

/-- The download filename built in extractPages:
`baseName + "_pages_" + startPage + "-" + endPage + ".pdf"` where
`baseName = pdfInfo.name.replace(".pdf", "")`. -/
def downloadFilename (name : String) (startPage endPage : Int) : String :=
  jsReplaceFirst (".pdf") name ++ "_pages_" ++ toString startPage ++ "-" ++
    toString endPage ++ ".pdf"

/-- Embedding of the extractPages handler.  `copyOutcome` is the outcome of
the load/create/copyPages calls (the copied pages, or `none` when the library
throws), `saveOutcome` the outcome of `newPdf.save()` on those pages.  The
second component is the download triggered by link.click(), when any. -/
def extractPages (copyOutcome : Option (List Nat))
    (saveOutcome : List Nat → Option (List Nat)) (s : AppState) :
    AppState × Option Download :=
  match s.pdfInfo with
  | none => (s, none)
  | some info =>
    match copyOutcome with
    | none => ({ s with error := some extractErrorMsg, isProcessing := false }, none)
    | some pages =>
      match saveOutcome pages with
      | none => ({ s with error := some extractErrorMsg, isProcessing := false }, none)
      | some bytes =>
        ({ s with error := none, isProcessing := false },
         some { filename := downloadFilename info.name s.startPage s.endPage,
                mime := "application/pdf", content := bytes })

/-- Spec-worded basename: the source name with its ".pdf" extension removed
when it ends in ".pdf" (compared against the code's jsReplaceFirst for
claim C6). -/
def specBaseName (name : String) : String :=
  if begMatches ((".pdf").data.reverse) (name.data.reverse) then
    String.mk (name.data.take (name.data.length - 4))
  else name

/-! Quick-select presets (preview variant). -/

/-- Embedding of `Math.ceil(pageCount / 2)` for a natural pageCount. -/
def jsCeilHalf (pageCount : Nat) : Nat := (pageCount + 1) / 2

/-- Quick-select "All pages": setStartPage(1); setEndPage(pageCount). -/
def quickSelectAll (info : PdfInfo) (s : AppState) : AppState :=
  { s with startPage := 1, endPage := (info.pageCount : Int) }

/-- Quick-select "First": setStartPage(1); setEndPage(1). -/
def quickSelectFirst (s : AppState) : AppState :=
  { s with startPage := 1, endPage := 1 }

/-- Quick-select "Last": setStartPage(pageCount); setEndPage(pageCount). -/
def quickSelectLast (info : PdfInfo) (s : AppState) : AppState :=
  { s with startPage := (info.pageCount : Int), endPage := (info.pageCount : Int) }

/-- Quick-select "First half": setStartPage(1); setEndPage(ceil(pageCount/2)). -/
def quickSelectFirstHalf (info : PdfInfo) (s : AppState) : AppState :=
  { s with startPage := 1, endPage := (jsCeilHalf info.pageCount : Int) }

/-! The three page.tsx variants' "First half" button: its render guard and
its onClick effect. -/

/-- Variant 1 (preview): the button renders iff `pdfInfo.pageCount > 2`. -/
def firstHalfShownV1 (pageCount : Nat) : Bool := decide (pageCount > 2)

/-- Variant 2: the button renders iff `pdfInfo.pageCount > 2`. -/
def firstHalfShownV2 (pageCount : Nat) : Bool := decide (pageCount > 2)

/-- Variant 3: the button renders iff `pdfInfo.pageCount > 1`. -/
def firstHalfShownV3 (pageCount : Nat) : Bool := decide (pageCount > 1)

/-- Variant 1 onClick: setStartPage(1); setEndPage(Math.ceil(pageCount/2)). -/
def firstHalfPresetV1 (info : PdfInfo) (s : AppState) : AppState :=
  { s with startPage := 1, endPage := (jsCeilHalf info.pageCount : Int) }

/-- Variant 2 onClick: setStartPage(1); setEndPage(Math.ceil(pageCount/2)). -/
def firstHalfPresetV2 (info : PdfInfo) (s : AppState) : AppState :=
  { s with startPage := 1, endPage := (jsCeilHalf info.pageCount : Int) }

/-- Variant 3 onClick: setStartPage(1); setEndPage(Math.ceil(pageCount/2)). -/
def firstHalfPresetV3 (info : PdfInfo) (s : AppState) : AppState :=
  { s with startPage := 1, endPage := (jsCeilHalf info.pageCount : Int) }

/-- Preview variant page-thumb onClick: setStartPage(pageNum); setEndPage(pageNum). -/
def pageThumbClick (pageNum : Int) (s : AppState) : AppState :=
  { s with startPage := pageNum, endPage := pageNum }

/-! Theorems settling the claims. -/

/-- C1: for every document and valid range [s, e] (1 ≤ s ≤ e ≤ pageCount),
extraction builds the zero-indexed index list [s-1, ..., e-1] in increasing
order, copies those pages into a fresh empty document appending in order, and
the output has exactly e - s + 1 pages matching source pages s..e in their
original order. -/
theorem extract_range_spec {α : Type} (source : List α) (s e : Nat)
    (h1 : 1 ≤ s) (h2 : s ≤ e) (h3 : e ≤ source.length) :
    pushIndices (s - 1) (e - 1) = List.range' (s - 1) (e - s + 1) ∧
    extractRange source s e = some ((source.drop (s - 1)).take (e - s + 1)) ∧
    ∀ out, extractRange source s e = some out →
      out.length = e - s + 1 ∧
      ∀ k, k < e - s + 1 → out[k]? = source[s - 1 + k]? := by
  have hidx : pushIndices (s - 1) (e - 1) = List.range' (s - 1) (e - s + 1) :=
    pushIndices_eq_range (e - s + 1) (s - 1) (e - 1) (by omega)
  have hcopy : copyPages source (List.range' (s - 1) (e - s + 1)) =
      some ((source.drop (s - 1)).take (e - s + 1)) :=
    copyPages_range' source (e - s + 1) (s - 1) (by omega)
  have hext : extractRange source s e =
      some ((source.drop (s - 1)).take (e - s + 1)) := by
    rw [extractRange, hidx, hcopy, Option.map_some']
    rw [foldl_addPage, List.nil_append]
  refine ⟨hidx, hext, ?_⟩
  intro out hout
  rw [hext] at hout
  obtain rfl : (source.drop (s - 1)).take (e - s + 1) = out := by
    exact Option.some.inj hout
  constructor
  · rw [List.length_take, List.length_drop]
    omega
  · intro k hk
    rw [List.getElem?_take_of_lt hk, List.getElem?_drop]

theorem extract_range_spec_witness :
    1 ≤ 3 ∧ 3 ≤ 5 ∧ 5 ≤ ([10, 20, 30, 40, 50, 60, 70, 80, 90, 100] : List Nat).length ∧
    extractRange ([10, 20, 30, 40, 50, 60, 70, 80, 90, 100] : List Nat) 3 5 =
      some [30, 40, 50] := by
  refine ⟨by decide, by decide, by decide, ?_⟩
  rw [(extract_range_spec ([10, 20, 30, 40, 50, 60, 70, 80, 90, 100] : List Nat)
        3 5 (by decide) (by decide) (by decide)).2.1]
  decide

/-- C2: for a loaded document, each typed bound is clamped into
[1, pageCount] before being stored; the range is valid iff startPage ≥ 1,
endPage ≥ startPage and endPage ≤ pageCount; when valid the displayed
selected-page count equals endPage - startPage + 1; when invalid the extract
control is disabled. -/
theorem range_validation_spec (startPage endPage : Int) (pageCount : Nat)
    (hpc : 1 ≤ pageCount) :
    (∀ v : Option Int, 1 ≤ clampPageInput v pageCount ∧
      clampPageInput v pageCount ≤ (pageCount : Int)) ∧
    (isValidRange startPage endPage pageCount = true ↔
      1 ≤ startPage ∧ startPage ≤ endPage ∧ endPage ≤ (pageCount : Int)) ∧
    (isValidRange startPage endPage pageCount = true →
      selectedPageCount startPage endPage pageCount = endPage - startPage + 1) ∧
    (isValidRange startPage endPage pageCount = false →
      ∀ (nm : String) (dr pr : Bool) (er : Option String),
        extractControlDisabled
          ⟨some ⟨nm, pageCount⟩, startPage, endPage, dr, pr, er⟩ = true) := by
  refine ⟨?_, ?_, ?_, ?_⟩
  · intro v
    refine ⟨le_max_left 1 _, max_le ?_ (min_le_right _ _)⟩
    exact_mod_cast hpc
  · simp only [isValidRange, Bool.and_eq_true, decide_eq_true_eq, ge_iff_le]
    constructor
    · rintro ⟨⟨hs, hse⟩, he⟩; exact ⟨hs, hse, he⟩
    · rintro ⟨hs, hse, he⟩; exact ⟨⟨hs, hse⟩, he⟩
  · intro hv
    simp [selectedPageCount, hv]
  · intro hv nm dr pr er
    simp [extractControlDisabled, stateValidRange, hv]

theorem range_validation_spec_witness :
    1 ≤ 10 ∧ selectedPageCount 2 4 10 = 4 - 2 + 1 := by
  have h := range_validation_spec 2 4 10 (by decide)
  exact ⟨by decide, h.2.2.1 (by decide)⟩

/-- C3: a successful open replaces the document wholesale and resets the
range to [1, pageCount] (a valid range whenever pageCount ≥ 1); a failed open
sets a user-facing error, clears the in-progress document, and leaves the
rest of the state (range, drag flag) untouched, ending with
isProcessing = false. -/
theorem loadPdf_spec (s : AppState) (f : JsFile) (pc : Nat) (hpc : 1 ≤ pc) :
    loadPdf f (some pc) s =
      { s with error := none, isProcessing := false,
               pdfInfo := some { name := f.name, pageCount := pc },
               startPage := 1, endPage := (pc : Int) } ∧
    isValidRange 1 (pc : Int) pc = true ∧
    (loadPdf f none s).error = some loadErrorMsg ∧
    (loadPdf f none s).pdfInfo = none ∧
    (loadPdf f none s).startPage = s.startPage ∧
    (loadPdf f none s).endPage = s.endPage ∧
    (loadPdf f none s).isDragging = s.isDragging ∧
    (loadPdf f none s).isProcessing = false := by
  refine ⟨rfl, ?_, rfl, rfl, rfl, rfl, rfl, rfl⟩
  simp only [isValidRange, Bool.and_eq_true, decide_eq_true_eq, ge_iff_le]
  refine ⟨⟨le_refl 1, ?_⟩, le_refl _⟩
  exact_mod_cast hpc

theorem loadPdf_spec_witness :
    1 ≤ 7 ∧
    loadPdf ⟨"doc.pdf", "application/pdf"⟩ (some 7) ⟨none, 1, 1, false, false, none⟩ =
      ⟨some ⟨"doc.pdf", 7⟩, 1, 7, false, false, none⟩ := by
  have h := loadPdf_spec ⟨none, 1, 1, false, false, none⟩
    ⟨"doc.pdf", "application/pdf"⟩ 7 (by decide)
  refine ⟨by decide, ?_⟩
  rw [h.1]
  rfl

/-- C5: a candidate file whose declared media type is not application/pdf is
rejected on both input paths: the error message is set and the loaded
document and range are untouched, without invoking loadPdf. -/
theorem nonpdf_rejected_spec (s : AppState) (f : JsFile) (r : Option Nat)
    (h : f.type ≠ "application/pdf") :
    ((handleFileSelect (some f) r s).1.pdfInfo = s.pdfInfo ∧
     (handleFileSelect (some f) r s).1.startPage = s.startPage ∧
     (handleFileSelect (some f) r s).1.endPage = s.endPage ∧
     (handleFileSelect (some f) r s).1.error = some selectErrorMsg ∧
     (handleFileSelect (some f) r s).2 = false) ∧
    ((handleDrop (some f) r s).1.pdfInfo = s.pdfInfo ∧
     (handleDrop (some f) r s).1.startPage = s.startPage ∧
     (handleDrop (some f) r s).1.endPage = s.endPage ∧
     (handleDrop (some f) r s).1.error = some dropErrorMsg ∧
     (handleDrop (some f) r s).2 = false) := by
  rw [handleFileSelect, handleDrop, if_neg h, if_neg h]
  exact ⟨⟨rfl, rfl, rfl, rfl, rfl⟩, ⟨rfl, rfl, rfl, rfl, rfl⟩⟩

/-- A ready state used by several concrete witnesses. -/
def readyState : AppState :=
  ⟨some ⟨"doc.pdf", 5⟩, 2, 4, false, false, none⟩

theorem nonpdf_rejected_spec_witness :
    (JsFile.type ⟨"notes.txt", "text/plain"⟩) ≠ "application/pdf" ∧
    (handleDrop (some ⟨"notes.txt", "text/plain"⟩) none readyState).1.pdfInfo =
      readyState.pdfInfo := by
  have h := nonpdf_rejected_spec readyState ⟨"notes.txt", "text/plain"⟩ none (by decide)
  exact ⟨by decide, h.2.1⟩

/-- C4: the download fires only when copy and serialization both succeeded;
when either fails, no download is triggered, the generic error is set, the
loaded document and page range are unchanged, and isProcessing ends false
(the interaction is back in the ready state). -/
theorem extract_error_spec (c : Option (List Nat))
    (sv : List Nat → Option (List Nat)) (s : AppState) (info : PdfInfo)
    (h : s.pdfInfo = some info) :
    ((extractPages c sv s).2.isSome →
      ∃ pages bytes, c = some pages ∧ sv pages = some bytes) ∧
    (c = none ∨ (∃ pages, c = some pages ∧ sv pages = none) →
      (extractPages c sv s).2 = none ∧
      (extractPages c sv s).1.error = some extractErrorMsg ∧
      (extractPages c sv s).1.pdfInfo = s.pdfInfo ∧
      (extractPages c sv s).1.startPage = s.startPage ∧
      (extractPages c sv s).1.endPage = s.endPage ∧
      (extractPages c sv s).1.isProcessing = false) := by
  obtain ⟨pi, sp, ep, dr, pr, er⟩ := s
  simp only at h
  subst h
  cases c with
  | none =>
    refine ⟨?_, ?_⟩
    · intro hsome
      simp [extractPages] at hsome
    · intro _
      exact ⟨rfl, rfl, rfl, rfl, rfl, rfl⟩
  | some pages =>
    cases hsv : sv pages with
    | none =>
      refine ⟨?_, ?_⟩
      · intro hsome
        simp [extractPages, hsv] at hsome
      · intro _
        simp [extractPages, hsv]
    | some bytes =>
      refine ⟨?_, ?_⟩
      · intro _
        exact ⟨pages, bytes, rfl, hsv⟩
      · rintro (hn | ⟨p, hp, hpn⟩)
        · exact absurd hn (by simp)
        · obtain rfl : pages = p := by exact Option.some.inj hp
          rw [hsv] at hpn
          exact absurd hpn (by simp)

theorem extract_error_spec_witness :
    readyState.pdfInfo = some ⟨"doc.pdf", 5⟩ ∧
    (extractPages none (fun _ => none) readyState).2 = none ∧
    (extractPages none (fun _ => none) readyState).1.error = some extractErrorMsg := by
  have h := extract_error_spec none (fun _ => none) readyState ⟨"doc.pdf", 5⟩ rfl
  have h2 := h.2 (Or.inl rfl)
  exact ⟨rfl, h2.1, h2.2.1⟩

/-- A ready state whose file name contains ".pdf" before its extension, used
as the concrete input refuting claim C6. -/
def trickyNameState : AppState :=
  ⟨some ⟨"a.pdfx.pdf", 10⟩, 3, 5, false, false, none⟩

/-- C6 counterexample: for the source name "a.pdfx.pdf" and range [3, 5],
the code's download filename is "ax.pdf_pages_3-5.pdf" (the first occurrence
of ".pdf" is removed), while the claim's basename rule (the name with its
".pdf" extension removed) yields "a.pdfx_pages_3-5.pdf"; the two differ. -/
theorem download_name_cex :
    (extractPages (some [7, 8, 9]) (fun _ => some [1, 2]) trickyNameState).2 =
      some ⟨"ax.pdf_pages_3-5.pdf", "application/pdf", [1, 2]⟩ ∧
    specBaseName ("a.pdfx.pdf") ++ "_pages_3-5.pdf" = "a.pdfx_pages_3-5.pdf" ∧
    ("ax.pdf_pages_3-5.pdf" : String) ≠ "a.pdfx_pages_3-5.pdf" := by
  refine ⟨by decide, by decide, by decide⟩

/-- C6 amended: on a successful extraction the downloaded file's name equals
the source name with the FIRST occurrence of the substring ".pdf" removed
(which coincides with stripping the extension when ".pdf" occurs only at the
end), followed by "_pages_(start)-(end).pdf", and its MIME type is
application/pdf. -/
theorem download_name_amended (s : AppState) (info : PdfInfo)
    (pages bytes : List Nat) (sv : List Nat → Option (List Nat))
    (h : s.pdfInfo = some info) (hs : sv pages = some bytes) :
    (extractPages (some pages) sv s).2 =
      some ⟨jsReplaceFirst (".pdf") info.name ++ "_pages_" ++
              toString s.startPage ++ "-" ++ toString s.endPage ++ ".pdf",
            "application/pdf", bytes⟩ := by
  obtain ⟨pi, sp, ep, dr, pr, er⟩ := s
  simp only at h
  subst h
  simp only [extractPages, hs]
  rfl

theorem download_name_amended_witness :
    readyState.pdfInfo = some ⟨"doc.pdf", 5⟩ ∧
    (extractPages (some [1, 2, 3]) (fun _ => some [9]) readyState).2 =
      some ⟨"doc_pages_2-4.pdf", "application/pdf", [9]⟩ := by
  refine ⟨rfl, ?_⟩
  have h := download_name_amended readyState ⟨"doc.pdf", 5⟩ [1, 2, 3] [9]
    (fun _ => some [9]) rfl rfl
  rw [h]
  decide

/-- C7: the quick-select presets set "All" to [1, pageCount], "First" to
[1, 1], "Last" to [pageCount, pageCount], and "First half" to
[1, ceil(pageCount / 2)]; the last is witnessed by the characterizing bounds
pageCount ≤ 2·endPage < pageCount + 2 of the ceiling. -/
theorem quick_select_spec (info : PdfInfo) (s : AppState) :
    quickSelectAll info s = { s with startPage := 1, endPage := (info.pageCount : Int) } ∧
    quickSelectFirst s = { s with startPage := 1, endPage := 1 } ∧
    quickSelectLast info s =
      { s with startPage := (info.pageCount : Int), endPage := (info.pageCount : Int) } ∧
    (quickSelectFirstHalf info s).startPage = 1 ∧
    (quickSelectFirstHalf info s).endPage = ((info.pageCount + 1) / 2 : Nat) ∧
    (info.pageCount : Int) ≤ 2 * (quickSelectFirstHalf info s).endPage ∧
    2 * (quickSelectFirstHalf info s).endPage < (info.pageCount : Int) + 2 := by
  refine ⟨rfl, rfl, rfl, rfl, rfl, ?_, ?_⟩ <;>
  · simp only [quickSelectFirstHalf, jsCeilHalf]
    omega

/-- A state with a load or extraction in flight, used as the concrete input
refuting claim C8. -/
def procState : AppState :=
  ⟨some ⟨"doc.pdf", 5⟩, 1, 5, false, true, none⟩

/-- C8 counterexample: in a state with isProcessing = true, dropping (or
picking) a PDF file still invokes loadPdf — the drop and file-select paths
are not gated on the processing flag, so not every user input path that can
start a load is disabled while one is in flight. -/
theorem processing_guard_cex :
    procState.isProcessing = true ∧
    (handleDrop (some ⟨"other.pdf", "application/pdf"⟩) (some 3) procState).2 = true ∧
    (handleFileSelect (some ⟨"other.pdf", "application/pdf"⟩) (some 3) procState).2 = true := by
  refine ⟨rfl, by decide, by decide⟩

/-- C8 amended: while isProcessing is true the extract control is disabled,
so no second extraction can be started from it; the file-picker and drop load
paths, however, are not gated on the processing flag and still invoke loadPdf
for a PDF file while an operation is in flight. -/
theorem processing_guard_amended (s : AppState) (f : JsFile) (r : Option Nat)
    (hp : s.isProcessing = true) (hf : f.type = "application/pdf") :
    extractControlDisabled s = true ∧
    (handleDrop (some f) r s).2 = true ∧
    (handleFileSelect (some f) r s).2 = true := by
  refine ⟨?_, ?_, ?_⟩
  · simp [extractControlDisabled, hp]
  · simp [handleDrop, hf]
  · simp [handleFileSelect, hf]

theorem processing_guard_amended_witness :
    procState.isProcessing = true ∧
    (JsFile.type ⟨"b.pdf", "application/pdf"⟩) = "application/pdf" ∧
    extractControlDisabled procState = true := by
  have h := processing_guard_amended procState ⟨"b.pdf", "application/pdf"⟩ none rfl rfl
  exact ⟨rfl, rfl, h.1⟩

/-- C9: the three source variants do not all gate the "First half" button on
the same condition — variants 1 and 2 show it iff pageCount > 2, variant 3
iff pageCount > 1, and they disagree at pageCount = 2 — while all three
onClick handlers set the same range [1, ceil(pageCount / 2)]. -/
theorem first_half_variants_spec :
    (firstHalfShownV1 2 = false ∧ firstHalfShownV2 2 = false ∧
      firstHalfShownV3 2 = true) ∧
    (∀ pc, firstHalfShownV1 pc = firstHalfShownV2 pc) ∧
    (∀ pc, firstHalfShownV1 pc = true ↔ pc > 2) ∧
    (∀ pc, firstHalfShownV3 pc = true ↔ pc > 1) ∧
    (∀ info s, firstHalfPresetV1 info s = firstHalfPresetV2 info s ∧
      firstHalfPresetV1 info s = firstHalfPresetV3 info s ∧
      (firstHalfPresetV1 info s).startPage = 1 ∧
      (firstHalfPresetV1 info s).endPage = (jsCeilHalf info.pageCount : Int)) := by
  refine ⟨⟨rfl, rfl, rfl⟩, fun pc => rfl, fun pc => ?_, fun pc => ?_, fun info s => ?_⟩
  · simp [firstHalfShownV1]
  · simp [firstHalfShownV3]
  · exact ⟨rfl, rfl, rfl, rfl⟩

/-- C10: clicking the thumbnail of page p in the preview sets both startPage
and endPage to p, leaving the loaded document unchanged, and the resulting
single-page range [p, p] is valid whenever 1 ≤ p ≤ pageCount. -/
theorem thumb_click_spec (s : AppState) (info : PdfInfo) (p : Int)
    (h : s.pdfInfo = some info) (h1 : 1 ≤ p) (h2 : p ≤ (info.pageCount : Int)) :
    (pageThumbClick p s).startPage = p ∧
    (pageThumbClick p s).endPage = p ∧
    (pageThumbClick p s).pdfInfo = s.pdfInfo ∧
    stateValidRange (pageThumbClick p s) = true := by
  obtain ⟨pi, sp, ep, dr, pr, er⟩ := s
  simp only at h
  subst h
  refine ⟨rfl, rfl, rfl, ?_⟩
  simp only [pageThumbClick, stateValidRange, isValidRange, Bool.and_eq_true,
    decide_eq_true_eq, ge_iff_le]
  exact ⟨⟨h1, le_refl p⟩, h2⟩

theorem thumb_click_spec_witness :
    readyState.pdfInfo = some ⟨"doc.pdf", 5⟩ ∧ (1 : Int) ≤ 3 ∧
    (3 : Int) ≤ ((5 : Nat) : Int) ∧
    stateValidRange (pageThumbClick 3 readyState) = true := by
  have h := thumb_click_spec readyState ⟨"doc.pdf", 5⟩ 3 rfl (by decide) (by decide)
  exact ⟨rfl, by decide, by decide, h.2.2.2⟩

end PdfSplitter
